import Mathlib

/-!
# Verification of the memory-graph storage/query engine

A shallow embedding, in Lean 4, of the parts of the `memorygraph` Python
package that the specification's claims talk about:

* the cloud pagination wrapper (`cloud_database.py`),
* the centralized tool-error decorator (`tools/error_handling.py`),
* the graph-query parameter substitution (`backends/ladybugdb_backend.py`),
* the input-size validators and the tool handlers that do or do not call
  them (`utils/validation.py`, `tools/relationship_tools.py`,
  `tools/memory_tools.py`),
* the cycle detector (`utils/graph_algorithms.py`),
* the two migration scripts (`migration/scripts/*.py`),
* and the bi-temporal relationship operations and fuzzy search engine,
  whose implementation module (`sqlite_database.py` / `database.py`) is not
  part of the sources at hand and is therefore modelled from the spec where
  a definition carries a `Modelled from the spec:` doc comment.

Timestamps are modelled as integers, Python strings as Lean `String`
(`String.data` gives the code-point list, matching Python `len`).
-/

namespace MemoryGraph

/-- Timestamps: an abstract totally ordered time axis (Python `datetime`
compares chronologically; integers model that order). -/
abbrev Timestamp := Int

/-! ## Shared string machinery

Python-faithful helpers used by several embeddings: `leadsList s l` is
"`s` is an initial segment of `l`", `hasSub pat hay` is Python's
`pat in hay` substring test. -/

/-- `leadsList p l` : `p` is an initial segment of `l`. -/
def leadsList : List Char → List Char → Bool
  | [], _ => true
  | _ :: _, [] => false
  | p :: ps, c :: cs => p == c && leadsList ps cs

/-- Python's `pat in hay` substring test on code-point lists. -/
def hasSub (pat : List Char) : List Char → Bool
  | [] => leadsList pat []
  | c :: rest => leadsList pat (c :: rest) || hasSub pat rest

/-! ## C1 — `CloudMemoryDatabase.search_memories_paginated`

Embedding of `src/memorygraph/cloud_database.py`, lines 103–135.  The
wrapper delegates the page fetch to `self.backend.search_memories`
(a REST call, outside the sources); the page it returns is therefore a
parameter of the embedding, exactly as the wrapper treats it. -/

/-- A stored memory record; only the fields the pagination claims touch. -/
structure Memory where
  id : String
  title : String := ""
  content : String := ""
  deriving Repr, DecidableEq

/-- The slice of `SearchQuery` the cloud pagination wrapper reads. -/
structure SearchQuery where
  limit : Nat
  offset : Nat
  deriving Repr, DecidableEq

/-- `PaginatedResult` as carried by the code: `results`, `total_count`,
`limit`, `offset`, `has_more`, `next_offset`.  `total_count` is an `Int`
because the cloud wrapper stores `-1` in it. -/
structure PaginatedResult where
  results : List Memory
  totalCount : Int
  limit : Nat
  offset : Nat
  hasMore : Bool
  nextOffset : Option Nat
  deriving Repr, DecidableEq

/-- Embedding of `CloudMemoryDatabase.search_memories_paginated`:
`backendPage` is the list returned by `self.backend.search_memories`. -/
def searchMemoriesPaginated (backendPage : List Memory) (q : SearchQuery) :
    PaginatedResult :=
  let memories := backendPage
  let hasMore := memories.length == q.limit
  let nextOffset := if hasMore then some (q.offset + q.limit) else none
  { results := memories
    totalCount := -1
    limit := q.limit
    offset := q.offset
    hasMore := hasMore
    nextOffset := nextOffset }

/-! ## C10 — the `handle_tool_errors` decorator

Embedding of `src/memorygraph/tools/error_handling.py`.  A tool handler
either returns a `CallToolResult` or raises; the decorator's `except`
clauses are mirrored in source order.  The exception hierarchy is the one
pinned by `tests/test_exceptions.py`: `MemoryNotFoundError`,
`RelationshipError`, `ValidationError`, `DatabaseConnectionError` and
`SchemaError` all subclass `models.MemoryError` (itself an `Exception`),
and `utils.validation.ValidationError` subclasses `ValueError`; none of
the `MemoryError` family subclasses `ValueError` or `KeyError`, so each
constructor below is caught by exactly the clause naming it. -/

/-- Exceptions a tool-handler body can raise, one constructor per class
the decorator distinguishes.  `otherExc` stands for any further
`Exception` subclass (e.g. `DatabaseConnectionError`). -/
inductive PyExc where
  | keyError (field : String)
  | pydanticValidation (msg : String)
  | modelValidation (msg : String)
  | valueError (msg : String)
  | memoryNotFound (memoryId : String)
  | relationshipError (msg : String)
  | otherExc (msg : String)
  deriving Repr, DecidableEq

/-- Python `str(e)` for each modelled exception.  `KeyError`'s `str` is
the `repr` of the missing key (quoted); `MemoryNotFoundError.__str__`
names the missing id (per `tests/test_exceptions.py`). -/
def PyExc.str : PyExc → String
  | .keyError f => "'" ++ f ++ "'"
  | .pydanticValidation m => m
  | .modelValidation m => m
  | .valueError m => m
  | .memoryNotFound memoryId => "Memory not found: " ++ memoryId
  | .relationshipError m => m
  | .otherExc m => m

/-- `mcp.types.TextContent`. -/
structure TextContent where
  type : String
  text : String
  deriving Repr, DecidableEq

/-- `mcp.types.CallToolResult`. -/
structure CallToolResult where
  content : List TextContent
  isError : Bool := false
  deriving Repr, DecidableEq

/-- Embedding of the `wrapper` closure produced by
`handle_tool_errors(operation_name)`: the wrapped handler's outcome
(normal return or raised exception) is mapped to a `CallToolResult`,
one branch per `except` clause, in source order. -/
def toolErrorWrapper (operationName : String)
    (outcome : Except PyExc CallToolResult) : CallToolResult :=
  match outcome with
  | .ok r => r
  | .error e =>
    match e with
    | .keyError _ =>
        { content := [⟨"text", "Error: Missing required field: " ++ e.str⟩]
          isError := true }
    | .pydanticValidation _ | .modelValidation _ | .valueError _ =>
        { content := [⟨"text", "Validation error: " ++ e.str⟩]
          isError := true }
    | .memoryNotFound _ =>
        { content := [⟨"text", e.str⟩], isError := true }
    | .relationshipError _ =>
        { content := [⟨"text", "Relationship error: " ++ e.str⟩]
          isError := true }
    | .otherExc _ =>
        { content := [⟨"text", "Failed to " ++ operationName ++ ": " ++ e.str⟩]
          isError := true }

/-! ### C1 theorems -/

/-- **C1, counterexample.**  The claim states that
`search_memories_paginated` returns a `total_count` computed against the
same filtered predicate as the page (hence a count, `≥ 0`) and that
`has_more = offset + len(page) < total_count`.  At the concrete input
below (backend returns a full page of 2 for `limit = 2`, `offset = 0`)
the code returns `total_count = -1 < 0` and `has_more = true`, while
`offset + len(page) < total_count` is false. -/
theorem searchMemoriesPaginated_claim_false :
    let r := searchMemoriesPaginated [⟨"m1", "", ""⟩, ⟨"m2", "", ""⟩] ⟨2, 0⟩
    r.totalCount < 0 ∧ r.hasMore = true ∧
      ¬ ((r.offset : Int) + r.results.length < r.totalCount) := by
  refine ⟨by decide, rfl, by decide⟩

/-- **C1, amended.**  `CloudMemoryDatabase.search_memories_paginated`
returns `total_count = -1` (unknown: the cloud API provides no count),
`has_more` exactly when the backend returned a full page
(`len(page) == limit`), `next_offset = offset + limit` when `has_more`
and absent otherwise, and passes the page and the query's `limit` and
`offset` through unchanged. -/
theorem searchMemoriesPaginated_cloud_spec (page : List Memory) (q : SearchQuery) :
    (searchMemoriesPaginated page q).totalCount = -1 ∧
    (searchMemoriesPaginated page q).hasMore = (page.length == q.limit) ∧
    (searchMemoriesPaginated page q).nextOffset =
      (if page.length == q.limit then some (q.offset + q.limit) else none) ∧
    (searchMemoriesPaginated page q).results = page ∧
    (searchMemoriesPaginated page q).limit = q.limit ∧
    (searchMemoriesPaginated page q).offset = q.offset := by
  refine ⟨rfl, rfl, rfl, rfl, rfl, rfl⟩

/-! ### C10 theorem -/

/-- A string starting with a non-empty piece is non-empty. -/
theorem strAppendNeEmpty (s t : String) (h : s.length ≠ 0) : s ++ t ≠ "" := by
  intro hc
  have hl := congrArg String.length hc
  rw [String.length_append] at hl
  have h0 : ("" : String).length = 0 := rfl
  rw [h0] at hl
  omega

/-- **C10.**  Every handler wrapped by `handle_tool_errors` yields a
`CallToolResult` for every outcome (the wrapper is a total function into
`CallToolResult`): a normal return passes through unchanged, and every
raised exception — `KeyError`, pydantic or custom `ValidationError`,
`ValueError`, `MemoryNotFoundError`, `RelationshipError`, or any other —
becomes a result with `isError = true` carrying one non-empty text
message. -/
theorem toolErrorWrapper_total (operationName : String)
    (r : CallToolResult) (e : PyExc) :
    toolErrorWrapper operationName (.ok r) = r ∧
    (toolErrorWrapper operationName (.error e)).isError = true ∧
    (toolErrorWrapper operationName (.error e)).content.length = 1 ∧
    ∀ tc ∈ (toolErrorWrapper operationName (.error e)).content,
      tc.text ≠ "" := by
  refine ⟨rfl, ?_, ?_, ?_⟩
  · cases e <;> rfl
  · cases e <;> rfl
  · intro tc htc
    cases e <;>
      (simp only [toolErrorWrapper, List.mem_singleton] at htc; subst htc) <;>
      first
      | exact strAppendNeEmpty _ _ (by decide)
      | exact strAppendNeEmpty _ _
          (by rw [String.length_append]
              have h2 : (": " : String).length = 2 := rfl
              rw [h2]; omega)

/-! ## C4 — `LadybugDBBackend._substitute_parameters`

Embedding of `src/memorygraph/backends/ladybugdb_backend.py`, lines
158–197.  Parameter values are modelled by `PyValue`, one constructor per
`isinstance` branch of the code (the final fallback branch is unreachable
for these constructors).  Python floats are carried by their `str(...)`
rendering, which is exactly what the code splices verbatim.  Composite
values are JSON-encoded with `json.dumps` defaults (`", "` / `": "`
separators, insertion order, ASCII escaping); the modelled JSON subset is
null/bool/int/string/array/object, the payloads this backend passes. -/

/-- JSON values as fed to `json.dumps` for list/dict parameters. -/
inductive Json where
  | null
  | bool (b : Bool)
  | int (n : Int)
  | str (s : String)
  | arr (xs : List Json)
  | obj (kvs : List (String × Json))

/-- Lower-case hexadecimal digit. -/
def hexDigit (n : Nat) : Char :=
  if n < 10 then Char.ofNat (48 + n) else Char.ofNat (87 + n)

/-- Four lower-case hex digits, as in `\uXXXX`. -/
def hex4 (n : Nat) : List Char :=
  [hexDigit (n / 4096 % 16), hexDigit (n / 256 % 16),
   hexDigit (n / 16 % 16), hexDigit (n % 16)]

/-- `json.dumps` character escaping with `ensure_ascii=True`: the two
JSON metacharacters and the short escapes, `\uXXXX` for all other
characters outside the printable ASCII range (surrogate pairs above the
BMP). -/
def jsonEscapeChar (c : Char) : List Char :=
  if c = '\\' then ['\\', '\\']
  else if c = '"' then ['\\', '"']
  else if c.toNat = 8 then ['\\', 'b']
  else if c.toNat = 12 then ['\\', 'f']
  else if c = '\n' then ['\\', 'n']
  else if c = '\r' then ['\\', 'r']
  else if c = '\t' then ['\\', 't']
  else if c.toNat < 32 ∨ 126 < c.toNat then
    if c.toNat < 65536 then '\\' :: 'u' :: hex4 c.toNat
    else
      '\\' :: 'u' :: hex4 (55296 + (c.toNat - 65536) / 1024) ++
        ('\\' :: 'u' :: hex4 (56320 + (c.toNat - 65536) % 1024))
  else [c]

/-- A JSON string literal: double quotes around the escaped characters. -/
def jsonQuote (s : String) : List Char :=
  '"' :: s.data.foldr (fun c acc => jsonEscapeChar c ++ acc) ['"']

mutual

/-- `json.dumps` with default settings on the modelled subset. -/
def jsonDumps : Json → List Char
  | .null => "null".data
  | .bool true => "true".data
  | .bool false => "false".data
  | .int n => (toString n).data
  | .str s => jsonQuote s
  | .arr [] => "[]".data
  | .arr (x :: xs) => '[' :: jsonDumpsItems (x :: xs) ++ [']']
  | .obj [] => "\x7b\x7d".data
  | .obj (p :: ps) => '\x7b' :: jsonDumpsPairs (p :: ps) ++ ['\x7d']

/-- Array items joined by `", "`. -/
def jsonDumpsItems : List Json → List Char
  | [] => []
  | [x] => jsonDumps x
  | x :: y :: xs => jsonDumps x ++ ", ".data ++ jsonDumpsItems (y :: xs)

/-- Object entries `"key": value` joined by `", "`, in insertion order. -/
def jsonDumpsPairs : List (String × Json) → List Char
  | [] => []
  | [(k, v)] => jsonQuote k ++ ": ".data ++ jsonDumps v
  | (k, v) :: p :: ps =>
      jsonQuote k ++ ": ".data ++ jsonDumps v ++ ", ".data ++
        jsonDumpsPairs (p :: ps)

end

/-- A Python value passed in the `parameters` dict, one constructor per
`isinstance` branch of `_substitute_parameters`.  `float` carries its
`str(...)` rendering, the exact text the code splices. -/
inductive PyValue where
  | str (s : String)
  | bool (b : Bool)
  | int (n : Int)
  | float (text : String)
  | none
  | list (xs : List Json)
  | dict (kvs : List (String × Json))

/-- The single-quote character as a string (used for quoting). -/
def singleQuote : String := ⟨['\'']⟩

/-- `value.replace("'", "\\'")`: each single quote becomes backslash
quote. -/
def escapeSingleQuotes (s : String) : String :=
  ⟨s.data.foldr (fun c acc => if c = '\'' then '\\' :: '\'' :: acc else c :: acc) []⟩

/-- The value-to-text conversion inside `_substitute_parameters`, branch
for branch in source order: strings quoted with escaped quotes, booleans
as `str(value).lower()`, ints/floats as `str(value)`, `None` as `null`,
lists/dicts as `json.dumps(value)`. -/
def serializeParamValue : PyValue → String
  | .str s => singleQuote ++ escapeSingleQuotes s ++ singleQuote
  | .bool b => if b then "true" else "false"
  | .int n => toString n
  | .float text => text
  | .none => "null"
  | .list xs => ⟨jsonDumps (.arr xs)⟩
  | .dict kvs => ⟨jsonDumps (.obj kvs)⟩

/-- Python `str.replace(old, new)`: non-overlapping occurrences replaced
left to right; after a match, scanning resumes after the matched text.
(The code only ever calls it with the non-empty needle `"$" + key`.)
The scan is driven by a fuel argument, instantiated with the text's
length, so the definition is structurally recursive and executable;
every step consumes at least one character, so the fuel never runs dry. -/
def pyReplaceFuel (old new : List Char) : Nat → List Char → List Char
  | 0, l => l
  | _ + 1, [] => []
  | fuel + 1, c :: rest =>
    if leadsList old (c :: rest) then
      new ++ pyReplaceFuel old new fuel (rest.drop (old.length - 1))
    else c :: pyReplaceFuel old new fuel rest

/-- `result.replace(placeholder, substituted_value)` on `String`. -/
def strReplace (s old new : String) : String :=
  ⟨pyReplaceFuel old.data new.data s.data.length s.data⟩

/-- Embedding of `_substitute_parameters`: one sequential
`str.replace` per `(key, value)` entry, in dict (insertion) order. -/
def substituteParameters (query : String) (params : List (String × PyValue)) :
    String :=
  params.foldl
    (fun result kv => strReplace result ("$" ++ kv.1) (serializeParamValue kv.2))
    query

/-! ### The claim's reading, from the spec's words -/

/-- Spec-side value serialization, phrase by phrase: "strings are
quote-escaped" (each quote preceded by a backslash), "booleans rendered
as lowercase literals", "numbers verbatim", "null as the query
language's null literal", "composite values JSON-encoded". -/
def specSerializeValue : PyValue → String
  | .str s =>
      singleQuote ++ ⟨s.data.flatMap (fun c => if c = '\'' then ['\\', c] else [c])⟩
        ++ singleQuote
  | .bool b => if b then "true" else "false"
  | .int n => toString n
  | .float text => text
  | .none => "null"
  | .list xs => ⟨jsonDumps (.arr xs)⟩
  | .dict kvs => ⟨jsonDumps (.obj kvs)⟩

/-- The `$key` placeholder of a parameter. -/
def placeholderOf (k : String) : List Char := '$' :: k.data

/-- The parameter whose placeholder occurs at the start of `l`, taking
the longest matching key (the unambiguous reading of "each `$key`
placeholder"). -/
def bestKeyAt (params : List (String × PyValue)) (l : List Char) :
    Option (String × PyValue) :=
  params.foldl
    (fun best kv =>
      if leadsList (placeholderOf kv.1) l then
        match best with
        | Option.none => some kv
        | some b => if b.1.length < kv.1.length then some kv else best
      else best)
    Option.none

/-- Spec-side substitution: a single simultaneous pass replacing each
`$key` placeholder by its value's serialization (fuel-driven like
`pyReplaceFuel`). -/
def substituteSpecFuel (params : List (String × PyValue)) :
    Nat → List Char → List Char
  | 0, l => l
  | _ + 1, [] => []
  | fuel + 1, c :: rest =>
    match bestKeyAt params (c :: rest) with
    | some kv =>
        (specSerializeValue kv.2).data ++
          substituteSpecFuel params fuel (rest.drop kv.1.length)
    | Option.none => c :: substituteSpecFuel params fuel rest

/-- Spec-side substitution on `String`. -/
def substituteSpec (query : String) (params : List (String × PyValue)) : String :=
  ⟨substituteSpecFuel params query.data.length query.data⟩

/-! ### C4 theorems -/

/-- **C4, counterexample.**  With parameters `{"a": 1, "ab": 2}` the
query `"$ab"` contains exactly one placeholder, `$ab`, so the claim
requires the result `"2"`; the sequential `str.replace` first rewrites
`$a`, producing `"1b"` instead. -/
theorem substituteParameters_claim_false :
    substituteParameters "$ab" [("a", PyValue.int 1), ("ab", PyValue.int 2)]
        = "1b" ∧
    substituteSpec "$ab" [("a", PyValue.int 1), ("ab", PyValue.int 2)] = "2" ∧
    ("1b" : String) ≠ "2" := by
  refine ⟨by decide, by decide, by decide⟩

/-- The code's per-value conversion agrees with the spec's serialization
table on every value. -/
theorem serializeParamValue_eq_spec (v : PyValue) :
    serializeParamValue v = specSerializeValue v := by
  cases v <;> try rfl
  case str s =>
    have : escapeSingleQuotes s
        = ⟨s.data.flatMap (fun c => if c = '\'' then ['\\', c] else [c])⟩ := by
      unfold escapeSingleQuotes
      congr 1
      induction s.data with
      | nil => rfl
      | cons c cs ih =>
        by_cases hc : c = '\'' <;> simp [hc, ih, List.flatMap_cons]
    show singleQuote ++ escapeSingleQuotes s ++ singleQuote = _
    rw [this]
    rfl

/-- For a one-entry parameter map the sequential replace and the
simultaneous spec-side substitution agree (the fuel-driven scans run in
lock-step). -/
theorem pyReplace_eq_spec_single (k : String) (v : PyValue) :
    ∀ (fuel : Nat) (l : List Char),
      pyReplaceFuel (placeholderOf k) (serializeParamValue v).data fuel l
        = substituteSpecFuel [(k, v)] fuel l := by
  intro fuel
  induction fuel with
  | zero => intro l; rfl
  | succ m ih =>
    intro l
    match l with
    | [] => rfl
    | c :: rest =>
      have hbest : bestKeyAt [(k, v)] (c :: rest)
          = (if leadsList (placeholderOf k) (c :: rest)
              then some (k, v) else Option.none) := by
        simp only [bestKeyAt, List.foldl_cons, List.foldl_nil]
      have hlen : (placeholderOf k).length - 1 = k.length := rfl
      have hs := serializeParamValue_eq_spec v
      by_cases hld : leadsList (placeholderOf k) (c :: rest) = true
      · rw [pyReplaceFuel, if_pos hld, substituteSpecFuel, hbest, if_pos hld, hlen]
        show (serializeParamValue v).data ++
              pyReplaceFuel (placeholderOf k) (serializeParamValue v).data m
                (rest.drop k.length)
            = (specSerializeValue v).data ++
              substituteSpecFuel [(k, v)] m (rest.drop k.length)
        have ih' := ih (rest.drop k.length)
        rw [hs] at ih' ⊢
        exact congrArg _ ih'
      · rw [pyReplaceFuel, if_neg hld, substituteSpecFuel, hbest, if_neg hld]
        exact congrArg _ (ih rest)

/-- **C4, amended.**  `_substitute_parameters` serializes every value
type-awarely exactly as the spec's table reads (strings single-quoted
with backslash-escaped quotes, booleans `true`/`false`, ints and floats
verbatim, `None` as `null`, lists/dicts JSON-encoded), and for a
single-parameter map it replaces each `$key` placeholder by that
serialization.  With several parameters the replacements are sequential
in map order, and a key that is a proper prefix of another key can
corrupt the longer placeholder (the counterexample). -/
theorem substituteParameters_single_spec :
    (∀ v : PyValue, serializeParamValue v = specSerializeValue v) ∧
    ∀ (q k : String) (v : PyValue),
      substituteParameters q [(k, v)] = substituteSpec q [(k, v)] := by
  refine ⟨serializeParamValue_eq_spec, ?_⟩
  intro q k v
  show strReplace q ("$" ++ k) (serializeParamValue v) = _
  unfold strReplace substituteSpec
  have hdata : ("$" ++ k).data = placeholderOf k := by
    simp [placeholderOf, String.data_append]
  rw [hdata]
  exact congrArg String.mk (pyReplace_eq_spec_single k v q.data.length q.data)

/-! ## The bi-temporal relationship store (C2, C3, C5)

The relational implementation (`sqlite_database.py` / `database.py`) is
not among the sources at hand — only its callers (`tools/*.py`) and its
tests are — so the store and its operations are modelled from the spec
(§3 data model, §4.2 temporal engine).  Relationship types are the 35
enum values, carried as their string names. -/

/-- A relationship row: directed typed edge with the four bi-temporal
fields (`valid_from`, nullable `valid_until`, `recorded_at`, nullable
`invalidated_by`). -/
structure Rel where
  id : String
  fromId : String
  toId : String
  rtype : String
  validFrom : Timestamp
  validUntil : Option Timestamp
  recordedAt : Timestamp
  invalidatedBy : Option String
  deriving Repr, DecidableEq

/-- Optional relationship-type filter (`relationship_types=None` means
no filter). -/
def typeOk (types : Option (List String)) (r : Rel) : Bool :=
  match types with
  | Option.none => true
  | some ts => ts.contains r.rtype

/-- The edge touches the queried memory (the engine returns both
incoming and outgoing relationships of a memory, as the call sites in
`utils/graph_algorithms.py` document). -/
def touches (r : Rel) (memoryId : String) : Bool :=
  r.fromId == memoryId || r.toId == memoryId

/-- Modelled from the spec: `get_related_memories(memory_id, types?)`
without `as_of` "returns only Valid edges" — rows with
`valid_until = null`. -/
def getRelatedCurrent (db : List Rel) (memoryId : String)
    (types : Option (List String)) : List Rel :=
  db.filter (fun r => touches r memoryId && typeOk types r && r.validUntil.isNone)

/-- Modelled from the spec: `get_related_memories(memory_id, types?,
as_of)` — "an edge qualifies iff `valid_from ≤ as_of AND (valid_until IS
NULL OR valid_until > as_of)`". -/
def getRelatedAsOf (db : List Rel) (memoryId : String)
    (types : Option (List String)) (asOf : Timestamp) : List Rel :=
  db.filter (fun r =>
    touches r memoryId && typeOk types r && decide (r.validFrom ≤ asOf) &&
      (match r.validUntil with
       | Option.none => true
       | some u => decide (asOf < u)))

/-- Modelled from the spec: `invalidate_relationship(id,
invalidated_by=None)` — "requires the target row to currently be Valid;
sets `valid_until = now`; fails with `RelationshipError` if not found or
already invalidated".  An error leaves the store untouched (the caller
keeps the old row list). -/
def invalidateRelationship (db : List Rel) (relId : String)
    (invalidatedBy : Option String) (now : Timestamp) :
    Except String (List Rel) :=
  match db.find? (fun r => r.id == relId) with
  | Option.none => Except.error ("Relationship not found: " ++ relId)
  | some r =>
    match r.validUntil with
    | some _ => Except.error ("Relationship already invalidated: " ++ relId)
    | Option.none =>
        Except.ok (db.map (fun x =>
          if x.id == relId then
            { x with validUntil := some now, invalidatedBy := invalidatedBy }
          else x))

/-! ### C2 theorems -/

/-- A relationship whose caller-supplied `valid_from` (5) lies in the
future of the query instant (3) — the spec itself says a future
`valid_from` is "accepted but flagged". -/
def futureEdge : Rel :=
  { id := "r1", fromId := "A", toId := "B", rtype := "RELATED_TO"
    validFrom := 5, validUntil := Option.none
    recordedAt := 5, invalidatedBy := Option.none }

/-- **C2, counterexample.**  The claim's third conjunct — `as_of = now`
equals the default call — fails at `now = 3` on a store holding one
Valid edge with future `valid_from = 5`: the default call returns the
edge (its `valid_until` is null) while the `as_of = now` call filters it
out (`valid_from ≤ as_of` fails). -/
theorem getRelated_asOfNow_claim_false :
    getRelatedCurrent [futureEdge] "A" Option.none = [futureEdge] ∧
    getRelatedAsOf [futureEdge] "A" Option.none 3 = [] := by
  refine ⟨by decide, by decide⟩

/-- **C2, amended.**  `get_related_memories` with `as_of` returns
exactly the edges (touching the memory and passing the type filter) with
`valid_from ≤ as_of` and (`valid_until` null or `> as_of`); without
`as_of` it returns exactly those with `valid_until = null`; and the
`as_of = now` call coincides with the default call provided no stored
edge has a future `valid_from` (and none a future `valid_until`), which
is the case whenever `valid_from` is never post-dated past `now`. -/
theorem getRelated_temporal_spec (db : List Rel) (memoryId : String)
    (types : Option (List String)) (asOf now : Timestamp) :
    (∀ r, r ∈ getRelatedAsOf db memoryId types asOf ↔
      r ∈ db ∧ touches r memoryId = true ∧ typeOk types r = true ∧
        r.validFrom ≤ asOf ∧
        (r.validUntil = Option.none ∨ ∃ u, r.validUntil = some u ∧ asOf < u)) ∧
    (∀ r, r ∈ getRelatedCurrent db memoryId types ↔
      r ∈ db ∧ touches r memoryId = true ∧ typeOk types r = true ∧
        r.validUntil = Option.none) ∧
    ((∀ r ∈ db, r.validFrom ≤ now ∧ ∀ u, r.validUntil = some u → u ≤ now) →
      getRelatedAsOf db memoryId types now = getRelatedCurrent db memoryId types) := by
  refine ⟨?_, ?_, ?_⟩
  · intro r
    rw [getRelatedAsOf, List.mem_filter]
    constructor
    · rintro ⟨hm, hp⟩
      refine ⟨hm, ?_⟩
      cases hu : r.validUntil with
      | none =>
        rw [hu] at hp
        simp only [Bool.and_eq_true, decide_eq_true_eq] at hp
        exact ⟨hp.1.1.1, hp.1.1.2, hp.1.2, Or.inl rfl⟩
      | some u =>
        rw [hu] at hp
        simp only [Bool.and_eq_true, decide_eq_true_eq] at hp
        exact ⟨hp.1.1.1, hp.1.1.2, hp.1.2, Or.inr ⟨u, rfl, hp.2⟩⟩
    · rintro ⟨hm, ht, hty, hvf, hvu⟩
      refine ⟨hm, ?_⟩
      rcases hvu with hnone | ⟨u, hsome, hlt⟩
      · rw [hnone]
        simp only [Bool.and_eq_true, decide_eq_true_eq]
        exact ⟨⟨⟨ht, hty⟩, hvf⟩, trivial⟩
      · rw [hsome]
        simp only [Bool.and_eq_true, decide_eq_true_eq]
        exact ⟨⟨⟨ht, hty⟩, hvf⟩, hlt⟩
  · intro r
    rw [getRelatedCurrent, List.mem_filter]
    simp only [Bool.and_eq_true, Option.isNone_iff_eq_none]
    constructor
    · rintro ⟨hm, ⟨⟨ht, hty⟩, hu⟩⟩
      exact ⟨hm, ht, hty, hu⟩
    · rintro ⟨hm, ht, hty, hu⟩
      exact ⟨hm, ⟨⟨ht, hty⟩, hu⟩⟩
  · intro hpast
    rw [getRelatedAsOf, getRelatedCurrent]
    apply List.filter_congr
    intro r hr
    have h1 : decide (r.validFrom ≤ now) = true :=
      decide_eq_true ((hpast r hr).1)
    cases hu : r.validUntil with
    | none => simp [hu, h1]
    | some u =>
      have h2 : ¬ (now < u) := not_lt.mpr ((hpast r hr).2 u hu)
      simp [hu, h1, h2]

/-- A Valid past edge used by the witnesses. -/
def pastEdge : Rel :=
  { id := "r1", fromId := "A", toId := "B", rtype := "SOLVES"
    validFrom := 1, validUntil := Option.none
    recordedAt := 1, invalidatedBy := Option.none }

/-- **C2, witness.**  The amended theorem applied to a one-edge store
whose edge is entirely in the past of `now = 10`. -/
theorem getRelated_temporal_spec_witness :
    (∀ r ∈ [pastEdge],
        r.validFrom ≤ (10 : Timestamp) ∧
          ∀ u, r.validUntil = some u → u ≤ (10 : Timestamp)) ∧
    getRelatedAsOf [pastEdge] "A" Option.none 10
      = getRelatedCurrent [pastEdge] "A" Option.none := by
  refine ⟨by decide, ?_⟩
  exact (getRelated_temporal_spec _ "A" Option.none 10 10).2.2 (by decide)

/-! ### C5 theorems -/

/-- `pastEdge` already invalidated at time 2. -/
def preInvalidatedEdge : Rel := { pastEdge with validUntil := some 2 }

/-- `pastEdge` after invalidation at time 7 naming successor `r2`. -/
def invalidatedEdge : Rel :=
  { pastEdge with validUntil := some 7, invalidatedBy := some "r2" }

/-- **C5.**  `invalidate_relationship` fails with a `RelationshipError`
when the id is absent, fails when the target row already has a non-null
`valid_until` (leaving the store untouched: an error yields no new row
list), and when the target row is currently Valid it succeeds, setting
exactly that row's `valid_until` to `now` and `invalidated_by` to the
given successor; invalidating the same id again on the new store is an
error, never a silent no-op. -/
theorem invalidateRelationship_spec (db : List Rel) (relId : String)
    (ib ib2 : Option String) (now now2 : Timestamp) :
    (db.find? (fun r => r.id == relId) = Option.none →
      invalidateRelationship db relId ib now
        = Except.error ("Relationship not found: " ++ relId)) ∧
    (∀ r u, db.find? (fun r => r.id == relId) = some r →
      r.validUntil = some u →
      invalidateRelationship db relId ib now
        = Except.error ("Relationship already invalidated: " ++ relId)) ∧
    (∀ r, db.find? (fun r => r.id == relId) = some r →
      r.validUntil = Option.none →
      invalidateRelationship db relId ib now
        = Except.ok (db.map (fun x =>
            if x.id == relId then
              { x with validUntil := some now, invalidatedBy := ib }
            else x)) ∧
      invalidateRelationship
          (db.map (fun x =>
            if x.id == relId then
              { x with validUntil := some now, invalidatedBy := ib }
            else x)) relId ib2 now2
        = Except.error ("Relationship already invalidated: " ++ relId)) := by
  refine ⟨?_, ?_, ?_⟩
  · intro hnone
    rw [invalidateRelationship, hnone]
  · intro r u hfind hu
    simp only [invalidateRelationship, hfind, hu]
  · intro r hfind hu
    constructor
    · simp only [invalidateRelationship, hfind, hu]
    · have hid : (r.id == relId) = true := by
        have h := List.find?_some hfind
        simpa using h
      have hfind2 :
          (db.map (fun x =>
            if x.id == relId then
              { x with validUntil := some now, invalidatedBy := ib }
            else x)).find? (fun r => r.id == relId)
          = some { r with validUntil := some now, invalidatedBy := ib } := by
        rw [List.find?_map]
        have hcomp :
            ((fun r : Rel => r.id == relId) ∘ (fun x =>
              if x.id == relId then
                { x with validUntil := some now, invalidatedBy := ib }
              else x))
            = fun r : Rel => r.id == relId := by
          funext x
          by_cases hx : (x.id == relId) = true <;>
            simp [Function.comp, hx]
        rw [hcomp, hfind]
        simp only [Option.map_some']
        rw [if_pos hid]
      simp only [invalidateRelationship, hfind2]

/-- **C5, witness.**  All three branches at concrete inputs: missing id,
already-invalidated row, and a successful invalidation followed by a
failing second one. -/
theorem invalidateRelationship_spec_witness :
    invalidateRelationship [] "r1" Option.none 5
      = Except.error ("Relationship not found: " ++ "r1") ∧
    invalidateRelationship [preInvalidatedEdge] "r1" Option.none 5
      = Except.error ("Relationship already invalidated: " ++ "r1") ∧
    invalidateRelationship [pastEdge] "r1" (some "r2") 7
      = Except.ok [invalidatedEdge] ∧
    invalidateRelationship [invalidatedEdge] "r1" Option.none 9
      = Except.error ("Relationship already invalidated: " ++ "r1") := by
  have h := (invalidateRelationship_spec [pastEdge] "r1" (some "r2")
      Option.none 7 9).2.2 pastEdge (by decide) rfl
  refine ⟨(invalidateRelationship_spec [] "r1" Option.none Option.none 5 5).1
      (by decide), ?_, ?_, ?_⟩
  · exact (invalidateRelationship_spec _ "r1" Option.none Option.none 5 5).2.1
      preInvalidatedEdge 2 (by decide) rfl
  · exact h.1.trans rfl
  · exact (rfl :
        invalidateRelationship [invalidatedEdge] "r1" Option.none 9
          = invalidateRelationship ([pastEdge].map (fun x =>
              if x.id == "r1" then
                { x with validUntil := some 7, invalidatedBy := some "r2" }
              else x)) "r1" Option.none 9).trans h.2

/-! ## C3 — the single-Valid-row-per-slot invariant

States reachable by sequences of `create_relationship` /
`invalidate_relationship` operations.  Modelled from the spec (§4.2):
`create_relationship` "validates both endpoints exist (else
`RelationshipError`)" — and performs no other check — then appends a new
Valid row with the caller's `valid_from` and `recorded_at = now`;
failures leave the state unchanged.  `invalidate_relationship` is
`invalidateRelationship` above. -/

/-- The store: the set of memory ids plus the relationship rows. -/
structure GraphState where
  memories : List String
  rels : List Rel
  deriving Repr, DecidableEq

/-- The two relationship-mutating operations of the temporal engine. -/
inductive TemporalOp where
  | create (relId fromId toId rtype : String) (validFrom : Timestamp)
  | invalidate (relId : String) (invalidatedBy : Option String)
  deriving Repr, DecidableEq

/-- Modelled from the spec: apply one operation at wall-clock `now`;
errors (missing endpoint, missing id, double invalidation) leave the
state unchanged. -/
def applyOp (s : GraphState) (now : Timestamp) : TemporalOp → GraphState
  | .create relId fromId toId rtype validFrom =>
    if s.memories.contains fromId && s.memories.contains toId then
      { s with rels := s.rels ++
          [{ id := relId, fromId := fromId, toId := toId, rtype := rtype
             validFrom := validFrom, validUntil := Option.none
             recordedAt := now, invalidatedBy := Option.none }] }
    else s
  | .invalidate relId ib =>
    match invalidateRelationship s.rels relId ib now with
    | Except.ok l => { s with rels := l }
    | Except.error _ => s

/-- Run a sequence of timestamped operations. -/
def runOps (s : GraphState) : List (Timestamp × TemporalOp) → GraphState
  | [] => s
  | p :: rest => runOps (applyOp s p.1 p.2) rest

/-- The number of Valid (`valid_until = null`) rows of the slot
`(from, to, type)`. -/
def currentCount (s : GraphState) (f t ty : String) : Nat :=
  (s.rels.filter (fun r =>
    r.fromId == f && r.toId == t && r.rtype == ty && r.validUntil.isNone)).length

/-- The claimed invariant: every slot has at most one Valid row. -/
def slotUnique (s : GraphState) : Prop :=
  ∀ f t ty, currentCount s f t ty ≤ 1

/-- The caller discipline of spec §5: a new edge for a slot is created
only while that slot has no Valid row (invalidate-then-create). -/
def guardedRun : GraphState → List (Timestamp × TemporalOp) → Bool
  | _, [] => true
  | s, p :: rest =>
    (match p.2 with
     | .create _ f t ty _ => currentCount s f t ty == 0
     | .invalidate _ _ => true) && guardedRun (applyOp s p.1 p.2) rest

/-- A store holding just the two endpoint memories. -/
def twoMemories : GraphState := { memories := ["A", "B"], rels := [] }

/-- Two creations of the same `(from, to, type)` slot with no
invalidation in between — each one is accepted, since
`create_relationship` only checks that the endpoints exist. -/
def doubleCreateOps : List (Timestamp × TemporalOp) :=
  [(0, .create "r1" "A" "B" "SOLVES" 0), (1, .create "r2" "A" "B" "SOLVES" 1)]

/-! ### C3 theorems -/

/-- **C3, counterexample.**  The state reached from `twoMemories` by the
two-create sequence has two simultaneously Valid rows in the slot
`("A", "B", "SOLVES")`, so the invariant fails on a reachable state. -/
theorem slotUnique_claim_false :
    ¬ slotUnique (runOps twoMemories doubleCreateOps) := by
  intro h
  have h2 := h "A" "B" "SOLVES"
  rw [(by decide :
      currentCount (runOps twoMemories doubleCreateOps) "A" "B" "SOLVES" = 2)]
    at h2
  omega

/-- Filtering a mapped list is no longer than filtering the original
when the map can only falsify the predicate. -/
theorem length_filter_map_le {α : Type} (u : α → α) (p : α → Bool)
    (h : ∀ x, p (u x) = true → p x = true) :
    ∀ l : List α, ((l.map u).filter p).length ≤ (l.filter p).length := by
  intro l
  induction l with
  | nil => simp
  | cons a l ih =>
    rw [List.map_cons, List.filter_cons, List.filter_cons]
    by_cases hp : p (u a) = true
    · rw [if_pos hp, if_pos (h a hp)]
      simpa using ih
    · rw [if_neg hp]
      by_cases hpa : p a = true
      · rw [if_pos hpa]
        exact le_trans ih (by simp)
      · rw [if_neg hpa]
        exact ih

/-- A successful invalidation returns exactly the mapped row list. -/
theorem invalidateRelationship_ok_shape (db : List Rel) (relId : String)
    (ib : Option String) (now : Timestamp) (l : List Rel)
    (h : invalidateRelationship db relId ib now = Except.ok l) :
    l = db.map (fun x =>
      if x.id == relId then
        { x with validUntil := some now, invalidatedBy := ib }
      else x) := by
  cases hf : db.find? (fun r => r.id == relId) with
  | none =>
    simp only [invalidateRelationship, hf] at h
    exact Except.noConfusion h
  | some r =>
    cases hr : r.validUntil with
    | some u =>
      simp only [invalidateRelationship, hf, hr] at h
      exact Except.noConfusion h
    | none =>
      simp only [invalidateRelationship, hf, hr, Except.ok.injEq] at h
      exact h.symm

/-- One guarded step preserves the invariant. -/
theorem applyOp_preserves (s : GraphState) (now : Timestamp) (op : TemporalOp)
    (hs : slotUnique s)
    (hguard : (match op with
      | .create _ f t ty _ => currentCount s f t ty == 0
      | .invalidate _ _ => true) = true) :
    slotUnique (applyOp s now op) := by
  cases op with
  | create relId f t ty vf =>
    have h0 : currentCount s f t ty = 0 := by
      simpa using hguard
    intro f' t' ty'
    rw [applyOp]
    by_cases hmem : (s.memories.contains f && s.memories.contains t) = true
    · rw [if_pos hmem]
      unfold currentCount
      rw [List.filter_append, List.length_append]
      by_cases hp :
          ((f : String) == f' && (t == t') && (ty == ty')
            && (Option.none : Option Timestamp).isNone) = true
      · have hftt : f = f' ∧ t = t' ∧ ty = ty' := by
          simp only [Bool.and_eq_true, beq_iff_eq] at hp
          exact ⟨hp.1.1.1, hp.1.1.2, hp.1.2⟩
        obtain ⟨hf1, ht1, hty1⟩ := hftt
        subst hf1; subst ht1; subst hty1
        unfold currentCount at h0
        simp only [List.filter_cons, List.filter_nil] at *
        rw [if_pos hp]
        simp only [List.length_cons, List.length_nil]
        omega
      · simp only [List.filter_cons, List.filter_nil]
        rw [if_neg hp]
        have := hs f' t' ty'
        unfold currentCount at this
        simpa using this
    · rw [if_neg hmem]
      exact hs f' t' ty'
  | invalidate relId ib =>
    intro f' t' ty'
    rw [applyOp]
    cases hinv : invalidateRelationship s.rels relId ib now with
    | error e => exact hs f' t' ty'
    | ok l =>
      have hl := invalidateRelationship_ok_shape s.rels relId ib now l hinv
      subst hl
      unfold currentCount
      have hmono := length_filter_map_le
        (fun x : Rel =>
          if x.id == relId then
            { x with validUntil := some now, invalidatedBy := ib }
          else x)
        (fun r : Rel =>
          r.fromId == f' && r.toId == t' && r.rtype == ty' && r.validUntil.isNone)
        (by
          intro x hx
          simp only [] at hx ⊢
          by_cases hid : (x.id == relId) = true
          · rw [if_pos hid] at hx
            simp at hx
          · rw [if_neg hid] at hx
            exact hx)
        s.rels
      have := hs f' t' ty'
      unfold currentCount at this
      exact le_trans hmono this

/-- **C3, amended.**  The single-Valid-row invariant holds in every
state reachable by a sequence of `create_relationship` /
`invalidate_relationship` operations that respects the spec §5 caller
discipline — a create for a slot is issued only while that slot has no
Valid row (invalidate-then-create).  Unguarded sequences can violate it
(the counterexample), since `create_relationship` checks only that the
endpoints exist. -/
theorem slotUnique_guardedRun (ops : List (Timestamp × TemporalOp)) :
    ∀ s : GraphState, slotUnique s → guardedRun s ops = true →
      slotUnique (runOps s ops) := by
  induction ops with
  | nil => intro s hs _; exact hs
  | cons p rest ih =>
    obtain ⟨now, op⟩ := p
    intro s hs hg
    rw [guardedRun, Bool.and_eq_true] at hg
    rw [runOps]
    exact ih (applyOp s now op) (applyOp_preserves s now op hs hg.1) hg.2

/-- A guarded invalidate-then-recreate sequence on the same slot. -/
def guardedOps : List (Timestamp × TemporalOp) :=
  [(0, .create "r1" "A" "B" "SOLVES" 0),
   (1, .invalidate "r1" Option.none),
   (2, .create "r2" "A" "B" "SOLVES" 2)]

/-- **C3, witness.**  The amended theorem applied to the concrete guarded
sequence `create; invalidate; create` on one slot. -/
theorem slotUnique_guardedRun_witness :
    guardedRun twoMemories guardedOps = true ∧
    slotUnique (runOps twoMemories guardedOps) := by
  refine ⟨by decide, ?_⟩
  exact slotUnique_guardedRun guardedOps twoMemories
    (by intro f t ty; simp [currentCount, twoMemories]) (by decide)

/-! ## C8 — input-size validation and the tool handlers

Embedding of `utils/validation.py` (the three validators, check for
check in source order, with Python truthiness: an absent, empty or
empty-list field is skipped) and of the tool handlers
`tools/relationship_tools.py::handle_create_relationship` (which calls
`validate_relationship_input` before the database call) and
`tools/memory_tools.py::handle_store_memory` (which calls no size
validator at all).  The pydantic `Memory` model lives in the missing
`models.py`; per the spec's data model (§3) it bounds `importance` and
`confidence` but imposes no title/content length caps, so the store
handler's `Memory(...)` construction succeeds on oversized text. -/

/-- Arguments of a tool call; `Option.none` models an absent key. -/
structure ToolArguments where
  memoryType : Option String := Option.none
  title : Option String := Option.none
  content : Option String := Option.none
  summary : Option String := Option.none
  tags : Option (List String) := Option.none
  query : Option String := Option.none
  context : Option String := Option.none
  fromMemoryId : Option String := Option.none
  toMemoryId : Option String := Option.none
  relationshipType : Option String := Option.none
  deriving Repr, DecidableEq

/-- `if "title" in arguments and arguments["title"]: if len(...) > MAX:
raise ValidationError(...)` for one string field. -/
def checkStrField (o : Option String) (limit : Nat) (msg : String) :
    Except String Unit :=
  match o with
  | some s =>
    if !(s == "") && decide (limit < s.length) then Except.error msg
    else Except.ok ()
  | Option.none => Except.ok ()

/-- The `tags` block of `validate_memory_input`: count bound first, then
the first over-long tag (every tag is a string here, so the
`isinstance` branch cannot fire). -/
def checkTags (o : Option (List String)) : Except String Unit :=
  match o with
  | Option.none => Except.ok ()
  | some tags =>
    if tags == ([] : List String) then Except.ok ()
    else if decide (50 < tags.length) then
      Except.error ("Too many tags (max 50, got " ++ toString tags.length ++ ")")
    else
      match tags.find? (fun tag => decide (100 < tag.length)) with
      | some tag =>
          Except.error ("Tag " ++ singleQuote ++ String.mk (tag.data.take 20)
            ++ "..." ++ singleQuote ++ " exceeds 100 characters")
      | Option.none => Except.ok ()

/-- `validate_memory_input`. -/
def validateMemoryInput (args : ToolArguments) : Except String Unit := do
  checkStrField args.title 500
    ("Title exceeds 500 characters (got "
      ++ toString (args.title.getD "").length ++ ")")
  checkStrField args.content 50000
    ("Content exceeds 50000 characters (got "
      ++ toString (args.content.getD "").length ++ ")")
  checkStrField args.summary 1000 "Summary exceeds 1000 characters"
  checkTags args.tags

/-- `validate_search_input`. -/
def validateSearchInput (args : ToolArguments) : Except String Unit :=
  checkStrField args.query 1000 "Query exceeds 1000 characters"

/-- `validate_relationship_input`. -/
def validateRelationshipInput (args : ToolArguments) : Except String Unit :=
  checkStrField args.context 10000 "Context exceeds 10000 characters"

/-- The 13 `MemoryType` values (pinned by `tests/test_model_sync.py`). -/
def memoryTypeNames : List String :=
  ["task", "code_pattern", "problem", "solution", "project", "technology",
   "error", "fix", "command", "file_context", "workflow", "general",
   "conversation"]

/-- Embedding of `handle_create_relationship`
(`tools/relationship_tools.py`): validation first — its
`ValidationError` (a `ValueError`) is turned into an error result by the
`@handle_tool_errors` decorator — then the database call, which appends
the new Valid row when both endpoints exist and raises
`RelationshipError` otherwise.  `newId` stands for the id the store
generates.  The returned pair is (new store state, tool result); an
error leaves the state unchanged. -/
def handleCreateRelationship (s : GraphState) (now : Timestamp)
    (newId : String) (args : ToolArguments) : GraphState × CallToolResult :=
  match validateRelationshipInput args with
  | Except.error msg =>
      (s, toolErrorWrapper "create relationship"
            (Except.error (PyExc.modelValidation msg)))
  | Except.ok _ =>
    match args.fromMemoryId with
    | Option.none =>
        (s, toolErrorWrapper "create relationship"
              (Except.error (PyExc.keyError "from_memory_id")))
    | some f =>
      match args.toMemoryId with
      | Option.none =>
          (s, toolErrorWrapper "create relationship"
                (Except.error (PyExc.keyError "to_memory_id")))
      | some t =>
        match args.relationshipType with
        | Option.none =>
            (s, toolErrorWrapper "create relationship"
                  (Except.error (PyExc.keyError "relationship_type")))
        | some ty =>
          if s.memories.contains f && s.memories.contains t then
            ({ s with rels := s.rels ++
                [{ id := newId, fromId := f, toId := t, rtype := ty
                   validFrom := now, validUntil := Option.none
                   recordedAt := now, invalidatedBy := Option.none }] },
             toolErrorWrapper "create relationship"
               (Except.ok ⟨[⟨"text",
                 "Relationship created successfully: " ++ newId⟩], false⟩))
          else
            (s, toolErrorWrapper "create relationship"
                  (Except.error (PyExc.relationshipError
                    ("Memory not found: " ++ f ++ ", " ++ t))))

/-- Embedding of `handle_store_memory` (`tools/memory_tools.py`): **no
size validator is invoked**; the handler builds the `Memory` (an unknown
type string raises `ValueError`, caught in-handler) and calls
`store_memory`, which persists a new memory id. -/
def handleStoreMemory (s : GraphState) (newId : String)
    (args : ToolArguments) : GraphState × CallToolResult :=
  match args.memoryType with
  | Option.none =>
      (s, ⟨[⟨"text", "Missing required field: " ++ singleQuote ++ "type"
              ++ singleQuote⟩], true⟩)
  | some mty =>
    if !(memoryTypeNames.contains mty) then
      (s, ⟨[⟨"text", "Validation error: invalid memory type " ++ mty⟩], true⟩)
    else
      match args.title with
      | Option.none =>
          (s, ⟨[⟨"text", "Missing required field: " ++ singleQuote ++ "title"
                  ++ singleQuote⟩], true⟩)
      | some _ =>
        match args.content with
        | Option.none =>
            (s, ⟨[⟨"text", "Missing required field: " ++ singleQuote
                    ++ "content" ++ singleQuote⟩], true⟩)
        | some _ =>
            ({ s with memories := s.memories ++ [newId] },
             ⟨[⟨"text", "Memory stored successfully with ID: " ++ newId⟩],
              false⟩)

/-! ### C8 theorems -/

/-- A 501-character title. -/
def longTitle : String := ⟨List.replicate 501 'x'⟩

/-- **C8, counterexample.**  A `store_memory` tool call whose title has
501 characters (over the 500 limit): `handle_store_memory` raises no
`ValidationError` — the stored state changes (the memory is persisted)
and the result is a success. -/
theorem handleStoreMemory_claim_false :
    500 < longTitle.length ∧
    (handleStoreMemory twoMemories "m1"
        { memoryType := some "solution", title := some longTitle,
          content := some "c" }).1 ≠ twoMemories ∧
    (handleStoreMemory twoMemories "m1"
        { memoryType := some "solution", title := some longTitle,
          content := some "c" }).2.isError = false := by
  refine ⟨?_, by decide, by decide⟩
  show 500 < (List.replicate 501 'x').length
  rw [List.length_replicate]
  omega

/-- The spec-side reading of one size check: the field is absent, empty
(falsy, hence skipped) or within the limit. -/
def fieldOk : Option String → Nat → Prop
  | Option.none, _ => True
  | some s, limit => s = "" ∨ s.length ≤ limit

/-- The spec-side reading of the tags checks. -/
def tagsOk : Option (List String) → Prop
  | Option.none => True
  | some l => l = [] ∨ (l.length ≤ 50 ∧ ∀ t ∈ l, t.length ≤ 100)

/-- One `checkStrField` passes exactly when the field is ok. -/
theorem checkStrField_ok_iff (o : Option String) (limit : Nat) (msg : String) :
    checkStrField o limit msg = Except.ok () ↔ fieldOk o limit := by
  cases o with
  | none => simp [checkStrField, fieldOk]
  | some s =>
    rw [checkStrField, fieldOk]
    by_cases hs : s = ""
    · subst hs
      simp
    · have hb : (s == "") = false := by
        simpa using hs
      rw [hb]
      by_cases hl : limit < s.length
      · rw [if_pos (by simp [hl])]
        simp [hs, not_le.mpr hl]
      · rw [if_neg (by simp [hl])]
        simp [hs, not_lt.mp hl]

/-- `checkTags` passes exactly when the tags are ok. -/
theorem checkTags_ok_iff (o : Option (List String)) :
    checkTags o = Except.ok () ↔ tagsOk o := by
  cases o with
  | none => simp [checkTags, tagsOk]
  | some tags =>
    rw [checkTags, tagsOk]
    by_cases he : tags = []
    · subst he
      simp
    · have hbe : (tags == ([] : List String)) = false := by
        simpa using he
      rw [hbe]
      simp only [Bool.false_eq_true, if_false]
      by_cases hc : 50 < tags.length
      · rw [if_pos (by simpa using hc)]
        simp [he, not_le.mpr hc]
      · rw [if_neg (by simpa using hc)]
        cases hfind : tags.find? (fun tag => decide (100 < tag.length)) with
        | some tag =>
          have htag := List.find?_some hfind
          have hmem := List.mem_of_find?_eq_some hfind
          simp only [decide_eq_true_eq] at htag
          constructor
          · intro h
            exact Except.noConfusion h
          · rintro (h | ⟨_, hall⟩)
            · exact absurd h he
            · exact absurd (hall tag hmem) (not_le.mpr htag)
        | none =>
          rw [List.find?_eq_none] at hfind
          refine ⟨fun _ => Or.inr ⟨not_lt.mp hc, fun t ht => ?_⟩, fun _ => rfl⟩
          have := hfind t ht
          simpa using this

/-- **C8, amended.**  The size validators reject exactly the documented
limits — title > 500, content > 50 000, summary > 1 000, more than 50
tags, a tag > 100, query > 1 000, relationship context > 10 000 (absent
or falsy fields are skipped) — and `handle_create_relationship` runs
`validate_relationship_input` before any database operation: on an
oversized context it returns an `isError` result and leaves the stored
state unchanged.  The memory tool handlers, however, invoke no size
validator (`handle_store_memory` persists an oversized title — the
counterexample). -/
theorem validationLimits_spec :
    (∀ args : ToolArguments, validateMemoryInput args = Except.ok () ↔
      (fieldOk args.title 500 ∧ fieldOk args.content 50000 ∧
        fieldOk args.summary 1000 ∧ tagsOk args.tags)) ∧
    (∀ args : ToolArguments, validateSearchInput args = Except.ok () ↔
      fieldOk args.query 1000) ∧
    (∀ args : ToolArguments, validateRelationshipInput args = Except.ok () ↔
      fieldOk args.context 10000) ∧
    (∀ (s : GraphState) (now : Timestamp) (newId : String)
        (args : ToolArguments) (msg : String),
      validateRelationshipInput args = Except.error msg →
        handleCreateRelationship s now newId args
            = (s, toolErrorWrapper "create relationship"
                (Except.error (PyExc.modelValidation msg))) ∧
          (toolErrorWrapper "create relationship"
            (Except.error (PyExc.modelValidation msg))).isError = true) := by
  refine ⟨?_, ?_, ?_, ?_⟩
  · intro args
    rw [validateMemoryInput]
    cases h1 : checkStrField args.title 500
      ("Title exceeds 500 characters (got "
        ++ toString (args.title.getD "").length ++ ")") with
    | error e =>
      simp only [bind, Except.bind]
      constructor
      · intro h; exact Except.noConfusion h
      · rintro ⟨ht, _⟩
        rw [← checkStrField_ok_iff args.title 500
          ("Title exceeds 500 characters (got "
            ++ toString (args.title.getD "").length ++ ")")] at ht
        rw [h1] at ht
        exact Except.noConfusion ht
    | ok u =>
      cases u
      have ht := (checkStrField_ok_iff args.title 500 _).mp h1
      simp only [bind, Except.bind, h1]
      cases h2 : checkStrField args.content 50000
        ("Content exceeds 50000 characters (got "
          ++ toString (args.content.getD "").length ++ ")") with
      | error e =>
        constructor
        · intro h; exact Except.noConfusion h
        · rintro ⟨_, hc, _⟩
          rw [← checkStrField_ok_iff args.content 50000
            ("Content exceeds 50000 characters (got "
              ++ toString (args.content.getD "").length ++ ")")] at hc
          rw [h2] at hc
          exact Except.noConfusion hc
      | ok u =>
        cases u
        have hc := (checkStrField_ok_iff args.content 50000 _).mp h2
        cases h3 : checkStrField args.summary 1000
            "Summary exceeds 1000 characters" with
        | error e =>
          constructor
          · intro h; exact Except.noConfusion h
          · rintro ⟨_, _, hsum, _⟩
            rw [← checkStrField_ok_iff args.summary 1000
              "Summary exceeds 1000 characters"] at hsum
            rw [h3] at hsum
            exact Except.noConfusion hsum
        | ok u =>
          cases u
          have hsum := (checkStrField_ok_iff args.summary 1000 _).mp h3
          rw [checkTags_ok_iff]
          exact ⟨fun htags => ⟨ht, hc, hsum, htags⟩, fun h => h.2.2.2⟩
  · intro args
    exact checkStrField_ok_iff args.query 1000 _
  · intro args
    exact checkStrField_ok_iff args.context 10000 _
  · intro s now newId args msg hval
    rw [handleCreateRelationship, hval]
    exact ⟨rfl, rfl⟩

/-- **C8, witness.**  The amended theorem applied to concrete inputs:
in-limit memory arguments validate, a 10 001-character relationship
context makes `handle_create_relationship` fail fast with an error
result and an unchanged store. -/
theorem validationLimits_spec_witness :
    validateMemoryInput { title := some "t", tags := some ["a", "b"] }
      = Except.ok () ∧
    handleCreateRelationship twoMemories 0 "r9"
        { context := some (String.mk (List.replicate 10001 'c')),
          fromMemoryId := some "A", toMemoryId := some "B",
          relationshipType := some "SOLVES" }
      = (twoMemories, toolErrorWrapper "create relationship"
          (Except.error (PyExc.modelValidation
            "Context exceeds 10000 characters"))) := by
  constructor
  · exact (validationLimits_spec.1 _).mpr
      (by refine ⟨Or.inr ?_, trivial, trivial, Or.inr ⟨?_, ?_⟩⟩ <;> decide)
  · have hlen : 10000 < (String.mk (List.replicate 10001 'c')).length := by
      show 10000 < (List.replicate 10001 'c').length
      rw [List.length_replicate]
      omega
    have hval : validateRelationshipInput
        { context := some (String.mk (List.replicate 10001 'c')),
          fromMemoryId := some "A", toMemoryId := some "B",
          relationshipType := some "SOLVES" }
        = Except.error "Context exceeds 10000 characters" := by
      rw [validateRelationshipInput, checkStrField]
      rw [if_pos]
      rw [Bool.and_eq_true, decide_eq_true_eq]
      refine ⟨?_, hlen⟩
      rw [Bool.not_eq_true', beq_eq_false_iff_ne]
      intro h
      rw [h] at hlen
      exact absurd hlen (by decide)
    exact (validationLimits_spec.2.2.2 twoMemories 0 "r9" _ _ hval).1

/-! ## C7 — fuzzy search: stemmer and weighted pattern expansion

The search engine (`sqlite_database.py`: `_simple_stem`,
`_generate_fuzzy_patterns` and the LIKE-pattern matching) is not among
the sources at hand — only its tests are — so it is modelled from the
spec (§4.4): STRICT matches the exact query substring only; FUZZY
expands each query word of length > 2 into the exact word at weight 1.0
plus suffix-stemmed variants at lower weight; the stemmer strips
`ied→y`, `ies→y`, `ing`, `ed`, `es`, trailing `s`, never shortening a
word below 3 characters.  The spec's testable property — fuzzy
"retrying" must match stored "retries" — requires that a stem ending in
`y` also contributes its re-suffixed `ies` form as a pattern (the
repository's own coverage test pins exactly this:
`_generate_fuzzy_patterns("retry")` contains a `retries` pattern). -/

/-- `w` ends in the suffix `suf`. -/
def endsIn (w suf : List Char) : Bool :=
  decide (suf.length ≤ w.length) && (w.drop (w.length - suf.length) == suf)

/-- `w` with its last `suf.length` characters removed. -/
def stripSuf (w suf : List Char) : List Char := w.take (w.length - suf.length)

/-- Modelled from the spec: the suffix stemmer.  Rules are tried in the
spec's order; a rule fires only when its result keeps at least 3
characters, otherwise the next rule is tried; with no applicable rule
the word is unchanged. -/
def simpleStem (w : List Char) : List Char :=
  if endsIn w ("ied".data) &&
      decide (3 ≤ (stripSuf w ("ied".data) ++ ['y']).length) then
    stripSuf w ("ied".data) ++ ['y']
  else if endsIn w ("ies".data) &&
      decide (3 ≤ (stripSuf w ("ies".data) ++ ['y']).length) then
    stripSuf w ("ies".data) ++ ['y']
  else if endsIn w ("ing".data) &&
      decide (3 ≤ (stripSuf w ("ing".data)).length) then
    stripSuf w ("ing".data)
  else if endsIn w ("ed".data) &&
      decide (3 ≤ (stripSuf w ("ed".data)).length) then
    stripSuf w ("ed".data)
  else if endsIn w ("es".data) &&
      decide (3 ≤ (stripSuf w ("es".data)).length) then
    stripSuf w ("es".data)
  else if endsIn w ("s".data) &&
      decide (3 ≤ (stripSuf w ("s".data)).length) then
    stripSuf w ("s".data)
  else w

/-- Modelled from the spec: the FUZZY expansion of one query word.
Words of length ≤ 2 are excluded from fuzzy expansion (exact pattern
only); longer words yield the exact word at weight 1.0, the stem (when
it differs) at a lower weight, and — for a stem ending in `y` — its
`ies` plural form at a still lower weight, which is what lets
"retrying" reach stored "retries". -/
def fuzzyVariants (w : List Char) : List (List Char × ℚ) :=
  if w.length ≤ 2 then [(w, 1)]
  else
    let st := simpleStem w
    [(w, 1)] ++
      (if st == w then [] else [(st, 4/5)]) ++
      (if endsIn st ("y".data) then
        [(stripSuf st ("y".data) ++ ("ies".data), 7/10)]
      else [])

/-- FUZZY match of one query word against stored content: some pattern
variant occurs as a substring. -/
def fuzzyWordMatches (w content : List Char) : Bool :=
  (fuzzyVariants w).any (fun pv => hasSub pv.1 content)

/-- STRICT match: the exact query text occurs as a substring. -/
def strictMatches (q content : List Char) : Bool := hasSub q content

/-! ### C7 theorem -/

/-- **C7.**  Under FUZZY tolerance every query word longer than 2
characters is expanded into weighted variants: the exact word at weight
1.0, the suffix-stemmed variant at lower weight when stemming changes
the word, and every variant's weight is at most 1.0 with non-exact
variants strictly below; the stemmer never shortens a word below 3
characters (or leaves it unchanged); words of length ≤ 2 get no fuzzy
variants; a FUZZY search for "retrying" matches content containing
"retries" while a STRICT search for "retrying" does not. -/
theorem fuzzySearch_spec :
    (∀ w : List Char, 2 < w.length →
      (w, (1 : ℚ)) ∈ fuzzyVariants w ∧
      (¬ simpleStem w = w →
        (simpleStem w, (4/5 : ℚ)) ∈ fuzzyVariants w) ∧
      ∀ p ∈ fuzzyVariants w, p.2 ≤ 1 ∧ (p ≠ (w, (1 : ℚ)) → p.2 < 1)) ∧
    (∀ w : List Char, simpleStem w = w ∨ 3 ≤ (simpleStem w).length) ∧
    (∀ w : List Char, w.length ≤ 2 → fuzzyVariants w = [(w, 1)]) ∧
    fuzzyWordMatches ("retrying".data)
      ("connection retries exceeded".data) = true ∧
    strictMatches ("retrying".data)
      ("connection retries exceeded".data) = false := by
  refine ⟨?_, ?_, ?_, by decide, by decide⟩
  · intro w hw
    have hnle : ¬ w.length ≤ 2 := not_le.mpr hw
    rw [fuzzyVariants, if_neg hnle]
    by_cases hst : (simpleStem w == w) = true
    · by_cases hy : endsIn (simpleStem w) ("y".data) = true
      · refine ⟨by simp, fun hne => absurd (by simpa using hst) hne, ?_⟩
        intro p hp
        simp only [hst, if_true, hy, List.append_nil, List.nil_append,
          List.mem_append, List.mem_singleton] at hp
        rcases hp with hp | hp <;> subst hp <;>
          refine ⟨by norm_num, ?_⟩ <;> intro hne
        · exact absurd rfl hne
        · norm_num
      · refine ⟨by simp, fun hne => absurd (by simpa using hst) hne, ?_⟩
        intro p hp
        simp only [hst, if_true, hy, Bool.false_eq_true, if_false,
          List.append_nil, List.mem_singleton] at hp
        subst hp
        exact ⟨by norm_num, fun hne => absurd rfl hne⟩
    · have hne : simpleStem w ≠ w := by simpa using hst
      by_cases hy : endsIn (simpleStem w) ("y".data) = true
      · refine ⟨by simp, fun _ => ?_, ?_⟩
        · simp [hst, hy]
        · intro p hp
          simp only [hst, Bool.false_eq_true, if_false, hy, if_true,
            List.mem_append, List.mem_singleton] at hp
          rcases hp with (hp | hp) | hp <;> subst hp <;>
            refine ⟨by norm_num, fun _ => ?_⟩
          · next hne2 => exact absurd rfl hne2
          · norm_num
          · norm_num
      · refine ⟨by simp, fun _ => ?_, ?_⟩
        · simp [hst, hy]
        · intro p hp
          simp only [hst, Bool.false_eq_true, if_false, hy,
            List.append_nil, List.mem_append, List.mem_singleton] at hp
          rcases hp with hp | hp <;> subst hp <;>
            refine ⟨by norm_num, fun _ => ?_⟩
          · next hne2 => exact absurd rfl hne2
          · norm_num
  · intro w
    unfold simpleStem
    split
    · next h => exact Or.inr (by simp only [Bool.and_eq_true, decide_eq_true_eq] at h; exact h.2)
    · split
      · next h => exact Or.inr (by simp only [Bool.and_eq_true, decide_eq_true_eq] at h; exact h.2)
      · split
        · next h => exact Or.inr (by simp only [Bool.and_eq_true, decide_eq_true_eq] at h; exact h.2)
        · split
          · next h => exact Or.inr (by simp only [Bool.and_eq_true, decide_eq_true_eq] at h; exact h.2)
          · split
            · next h =>
                exact Or.inr (by simp only [Bool.and_eq_true, decide_eq_true_eq] at h; exact h.2)
            · split
              · next h =>
                  exact Or.inr (by simp only [Bool.and_eq_true, decide_eq_true_eq] at h; exact h.2)
              · exact Or.inl rfl
  · intro w hw
    rw [fuzzyVariants, if_pos hw]

/-- **C7, witness.**  The expansion facts applied to the concrete word
"retrying" (length 8 > 2) and the short word "ab" (length 2). -/
theorem fuzzySearch_spec_witness :
    (("retrying".data, (1 : ℚ)) ∈ fuzzyVariants ("retrying".data)) ∧
    fuzzyVariants ("ab".data) = [("ab".data, 1)] := by
  refine ⟨(fuzzySearch_spec.1 ("retrying".data) (by decide)).1, ?_⟩
  exact fuzzySearch_spec.2.2.1 ("ab".data) (by decide)

/-! ## C9 — migration dry runs

Embeddings of the SQLite paths of the two migration scripts,
`migration/scripts/bitemporal_migration.py::_migrate_sqlite_backend`
and `migration/scripts/multitenancy_migration.py::_migrate_sqlite_backend`.
The relational table is modelled as a column-presence record plus rows;
a field whose column flag is `false` is ignored.

SQLite's `ALTER TABLE ... ADD COLUMN` semantics matter for the
bi-temporal wet path: a plain nullable column (`valid_until TIMESTAMP`,
`invalidated_by TEXT`) is added NULL-filled, but the statements for
`valid_from` and `recorded_at` carry `NOT NULL DEFAULT
CURRENT_TIMESTAMP`, and SQLite rejects `ADD COLUMN` with a non-constant
default ("Cannot add a column with non-constant default").  The script
swallows that `sqlite3.Error` per column and proceeds; its backfilling
`UPDATE ... WHERE valid_from IS NULL OR recorded_at IS NULL` is not
guarded, so when either column is still missing the `UPDATE` raises
"no such column", the exception propagates to `migrate_to_bitemporal`'s
generic handler, and the call reports `success=False` with
`relationships_updated = 0` and `indexes_created = 0`. -/

/-- A `relationships` row as the bi-temporal migration sees it. -/
structure BtRow where
  validFrom : Option Timestamp
  validUntil : Option Timestamp
  recordedAt : Option Timestamp
  invalidatedBy : Option String
  createdAt : Option Timestamp
  deriving Repr, DecidableEq

/-- The `relationships` table: which temporal columns exist, the rows,
and the index names present. -/
structure BtDB where
  hasValidFrom : Bool
  hasValidUntil : Bool
  hasRecordedAt : Bool
  hasInvalidatedBy : Bool
  rows : List BtRow
  indexes : List String
  deriving Repr, DecidableEq

/-- All four temporal columns present (`missing_temporal` empty). -/
def allTemporal (db : BtDB) : Bool :=
  db.hasValidFrom && db.hasValidUntil && db.hasRecordedAt && db.hasInvalidatedBy

/-- The script's `for column in missing_temporal` ALTER loop: the
nullable `valid_until` / `invalidated_by` columns are added NULL-filled;
the `valid_from` / `recorded_at` statements carry `NOT NULL DEFAULT
CURRENT_TIMESTAMP`, which SQLite rejects (non-constant default), and the
per-column `except sqlite3.Error` swallows the failure, leaving those
columns absent. -/
def attemptAddColumns (db : BtDB) : BtDB :=
  { db with
    hasValidUntil := true
    hasInvalidatedBy := true
    rows := db.rows.map (fun r =>
      { r with
        validUntil := if db.hasValidUntil then r.validUntil else Option.none
        invalidatedBy :=
          if db.hasInvalidatedBy then r.invalidatedBy else Option.none }) }

/-- `CREATE INDEX IF NOT EXISTS`, three times. -/
def addIndexes (cur : List String) (new : List String) : List String :=
  new.foldl (fun acc i => if acc.contains i then acc else acc ++ [i]) cur

/-- The row predicate of the backfilling `UPDATE ... WHERE valid_from IS
NULL OR recorded_at IS NULL`. -/
def btNeedsUpdate (r : BtRow) : Bool :=
  r.validFrom.isNone || r.recordedAt.isNone

/-- The dictionary `migrate_to_bitemporal` returns: `success`,
`relationships_updated`, `indexes_created`. -/
structure BtMigrationResult where
  success : Bool
  updated : Nat
  indexesCreated : Nat
  deriving Repr, DecidableEq

/-- Embedding of `migrate_to_bitemporal` over the SQLite
`_migrate_sqlite_backend`: returns the table state as the connection
sees it and the reported result.  With the temporal schema complete
nothing happens; the dry run reports `SELECT COUNT(*)` — all rows — and
3 indexes without writing.  The wet run attempts the four ALTERs
(`attemptAddColumns`); if `valid_from` or `recorded_at` is still
missing, the unguarded backfilling `UPDATE` raises "no such column" and
the wrapper reports `success=False` with 0 updates and 0 indexes;
otherwise the `UPDATE` backfills `valid_from`/`recorded_at` from
`created_at` (or now) on rows where either is NULL and the three
temporal indexes are created. -/
def migrateBitemporalSqlite (db : BtDB) (now : Timestamp) (dryRun : Bool) :
    BtDB × BtMigrationResult :=
  if allTemporal db then (db, { success := true, updated := 0, indexesCreated := 0 })
  else if dryRun then
    (db, { success := true, updated := db.rows.length, indexesCreated := 3 })
  else
    let db1 := attemptAddColumns db
    if db1.hasValidFrom && db1.hasRecordedAt then
      let updated := (db1.rows.filter btNeedsUpdate).length
      let rows2 := db1.rows.map (fun r =>
        if btNeedsUpdate r then
          { r with
            validFrom := some (r.validFrom.getD (r.createdAt.getD now))
            recordedAt := some (r.recordedAt.getD (r.createdAt.getD now))
            validUntil := Option.none
            invalidatedBy := Option.none }
        else r)
      let idx := addIndexes db1.indexes
        ["idx_relationships_temporal", "idx_relationships_current",
         "idx_relationships_recorded"]
      ({ db1 with rows := rows2, indexes := idx },
       { success := true, updated := updated, indexesCreated := 3 })
    else
      (db1, { success := false, updated := 0, indexesCreated := 0 })

/-- A `nodes` row as the multi-tenancy migration sees it
(`json_extract(properties, '$.context.tenant_id')` and the visibility
field; `tenantId = Option.none` covers both an absent context and a null
tenant id). -/
structure MtNode where
  id : String
  label : String
  tenantId : Option String
  visibility : Option String
  updatedAt : Timestamp
  deriving Repr, DecidableEq

/-- The migration's row predicate: a Memory node whose tenant id is NULL
or empty. -/
def needsTenant (n : MtNode) : Bool :=
  n.label == "Memory" &&
    (match n.tenantId with
     | Option.none => true
     | some s => s == "")

/-- Embedding of the multi-tenancy `_migrate_sqlite_backend`: counts the
Memory nodes without a tenant id; the dry run stops there, the wet run
sets `tenant_id`, `visibility` and `updated_at` on exactly those
nodes. -/
def migrateMultitenantSqlite (nodes : List MtNode) (tenantId visibility : String)
    (now : Timestamp) (dryRun : Bool) : List MtNode × Nat :=
  let count := (nodes.filter needsTenant).length
  if dryRun then (nodes, count)
  else
    (nodes.map (fun n =>
      if needsTenant n then
        { n with tenantId := some tenantId, visibility := some visibility,
                 updatedAt := now }
      else n), count)

/-! ### C9 theorems -/

/-- A partially migrated table: `valid_from`, `valid_until` and
`recorded_at` exist and are populated, `invalidated_by` is missing —
the situation the script itself logs as "Partial temporal schema
detected". -/
def partialBtDB : BtDB :=
  { hasValidFrom := true, hasValidUntil := true
    hasRecordedAt := true, hasInvalidatedBy := false
    rows := [{ validFrom := some 0, validUntil := Option.none
               recordedAt := some 0, invalidatedBy := Option.none
               createdAt := some 0 }]
    indexes := [] }

/-- A two-row legacy table with no temporal columns at all. -/
def legacyBtDB : BtDB :=
  { hasValidFrom := false, hasValidUntil := false
    hasRecordedAt := false, hasInvalidatedBy := false
    rows := [{ validFrom := Option.none, validUntil := Option.none
               recordedAt := Option.none, invalidatedBy := Option.none
               createdAt := some 1 },
             { validFrom := Option.none, validUntil := Option.none
               recordedAt := Option.none, invalidatedBy := Option.none
               createdAt := Option.none }]
    indexes := [] }

/-- **C9, counterexample.**  The dry-run count is not "the count of rows
that a non-dry run would mutate", twice over: on the partial schema the
dry run reports 1 row (`SELECT COUNT(*)`) while a non-dry run mutates 0
(its `UPDATE` is restricted to rows with NULL `valid_from` /
`recorded_at`); and on the two-row legacy table the dry run reports 2
while a non-dry run mutates 0 and fails — SQLite rejects the
`valid_from` / `recorded_at` ALTERs (non-constant `CURRENT_TIMESTAMP`
default) and the backfilling `UPDATE` then hits a missing column. -/
theorem migrateBitemporal_dryCount_claim_false :
    ((migrateBitemporalSqlite partialBtDB 5 true).2.updated = 1 ∧
      (migrateBitemporalSqlite partialBtDB 5 false).2.updated = 0) ∧
    ((migrateBitemporalSqlite legacyBtDB 5 true).2.updated = 2 ∧
      (migrateBitemporalSqlite legacyBtDB 5 false).2.updated = 0 ∧
      (migrateBitemporalSqlite legacyBtDB 5 false).2.success = false) := by
  refine ⟨⟨by decide, by decide⟩, by decide, by decide, by decide⟩

/-- **C9, amended.**  Both migrations' dry runs perform no writes — the
table state is returned unchanged.  `migrate_to_multitenant`'s dry-run
count equals exactly the number of rows a non-dry run mutates.
`migrate_to_bitemporal`'s dry run reports the total row count whenever
some temporal column is missing, but a non-dry run never mutates that
many rows on a nonempty table: when `valid_from` or `recorded_at` is
absent, SQLite rejects their `NOT NULL DEFAULT CURRENT_TIMESTAMP`
ALTERs and the unguarded backfilling `UPDATE` fails, so the run reports
`success=False` with 0 rows updated and 0 indexes; when both are
present, the `UPDATE` mutates exactly the rows with NULL `valid_from`
or `recorded_at`. -/
theorem migration_dryRun_spec :
    (∀ (db : BtDB) (now : Timestamp),
      (migrateBitemporalSqlite db now true).1 = db) ∧
    (∀ (nodes : List MtNode) (t v : String) (now : Timestamp),
      (migrateMultitenantSqlite nodes t v now true).1 = nodes ∧
      (migrateMultitenantSqlite nodes t v now true).2
        = (migrateMultitenantSqlite nodes t v now false).2) ∧
    (∀ (db : BtDB) (now : Timestamp),
      db.hasValidFrom = false ∨ db.hasRecordedAt = false →
      (migrateBitemporalSqlite db now false).2.success = false ∧
      (migrateBitemporalSqlite db now false).2.updated = 0 ∧
      (migrateBitemporalSqlite db now false).2.indexesCreated = 0) ∧
    (∀ (db : BtDB) (now : Timestamp),
      db.hasValidFrom = true → db.hasRecordedAt = true →
      allTemporal db = false →
      (migrateBitemporalSqlite db now false).2.updated
        = (db.rows.filter btNeedsUpdate).length) := by
  refine ⟨?_, ?_, ?_, ?_⟩
  · intro db now
    rw [migrateBitemporalSqlite]
    by_cases h : allTemporal db = true
    · rw [if_pos h]
    · rw [if_neg h, if_pos rfl]
  · intro nodes t v now
    exact ⟨rfl, rfl⟩
  · intro db now h
    have hat : allTemporal db = false := by
      rcases h with h | h <;> simp [allTemporal, h]
    have hcols :
        ((attemptAddColumns db).hasValidFrom
          && (attemptAddColumns db).hasRecordedAt) = false := by
      show (db.hasValidFrom && db.hasRecordedAt) = false
      rcases h with h | h <;> simp [h]
    rw [migrateBitemporalSqlite, hat]
    simp only [Bool.false_eq_true, if_false, if_pos rfl]
    rw [if_neg (by rw [hcols]; exact Bool.false_ne_true)]
    exact ⟨rfl, rfl, rfl⟩
  · intro db now hVF hRA hnat
    have hcols :
        ((attemptAddColumns db).hasValidFrom
          && (attemptAddColumns db).hasRecordedAt) = true := by
      show (db.hasValidFrom && db.hasRecordedAt) = true
      rw [hVF, hRA]
      rfl
    rw [migrateBitemporalSqlite, hnat]
    simp only [Bool.false_eq_true, if_false, if_pos rfl]
    rw [if_pos hcols]
    show ((attemptAddColumns db).rows.filter btNeedsUpdate).length
      = (db.rows.filter btNeedsUpdate).length
    rw [attemptAddColumns]
    have hpres : ∀ x : BtRow, btNeedsUpdate
        ({ x with
           validUntil := if db.hasValidUntil then x.validUntil else Option.none
           invalidatedBy :=
             if db.hasInvalidatedBy then x.invalidatedBy else Option.none })
        = btNeedsUpdate x := fun x => rfl
    have : ∀ (l : List BtRow),
        ((l.map (fun r =>
          { r with
            validUntil := if db.hasValidUntil then r.validUntil else Option.none
            invalidatedBy :=
              if db.hasInvalidatedBy then r.invalidatedBy
              else Option.none })).filter btNeedsUpdate).length
        = (l.filter btNeedsUpdate).length := by
      intro l
      induction l with
      | nil => rfl
      | cons a l ih =>
        rw [List.map_cons, List.filter_cons, List.filter_cons, hpres a]
        by_cases hp : btNeedsUpdate a = true
        · rw [if_pos hp, if_pos hp]
          simpa using ih
        · rw [if_neg hp, if_neg hp]
          exact ih
    exact this db.rows

/-- **C9, witness.**  The amended theorem applied to the concrete
tables: the legacy wet run fails with 0 updates, and on the partial
schema the wet run mutates exactly the NULL-temporal rows. -/
theorem migration_dryRun_spec_witness :
    (migrateBitemporalSqlite legacyBtDB 9 true).1 = legacyBtDB ∧
    (migrateBitemporalSqlite legacyBtDB 9 false).2.success = false ∧
    (migrateBitemporalSqlite legacyBtDB 9 false).2.updated = 0 ∧
    (migrateBitemporalSqlite partialBtDB 9 false).2.updated
      = (partialBtDB.rows.filter btNeedsUpdate).length := by
  refine ⟨migration_dryRun_spec.1 legacyBtDB 9, ?_, ?_, ?_⟩
  · exact (migration_dryRun_spec.2.2.1 legacyBtDB 9 (Or.inl rfl)).1
  · exact (migration_dryRun_spec.2.2.1 legacyBtDB 9 (Or.inl rfl)).2.1
  · exact migration_dryRun_spec.2.2.2 partialBtDB 9 rfl rfl rfl

/-! ## C6 — `has_cycle` (`utils/graph_algorithms.py`)

The DFS is embedded with a fuel argument `fuel = max_depth + 1 - depth`,
so the Python guard `depth > max_depth` is `fuel = 0`.  Two call-outs of
the source matter here:

* `_get_outgoing_relationships` runs
  `SELECT to_id FROM relationships WHERE from_id = ? AND rel_type = ?` —
  with **no** `valid_until` filter, so invalidated edges are followed;
* the outer `for related in relationships` loop iterates the whole
  inner target loop once per element of the `get_related_memories`
  result (only Valid edges, both directions — that call's implementation
  is not under `src/`, so it is modelled from the spec), which acts as a
  non-emptiness gate for expanding a node.

The Python `visited` set is threaded through as a list. -/

/-- Embedding of `_get_outgoing_relationships` (SQLite path): all
outgoing edges of the type, Valid or not. -/
def outgoingTargets (db : List Rel) (node rtype : String) : List String :=
  (db.filter (fun r => r.fromId == node && r.rtype == rtype)).map
    (fun r => r.toId)

/-- Modelled from the spec: `get_related_memories(current, [type],
max_depth=1)` — only Valid edges, both directions, of the type.
`has_cycle` uses only its length (loop repetition / emptiness gate). -/
def relatedValid (db : List Rel) (node rtype : String) : List Rel :=
  db.filter (fun r =>
    (r.fromId == node || r.toId == node) && r.rtype == rtype &&
      r.validUntil.isNone)

/-- The inner `for target_id in rels` loop: run `step` on each target,
threading the visited list, stopping at the first `True`. -/
def loopTargets (step : String → List String → Bool × List String) :
    List String → List String → Bool × List String
  | [], visited => (false, visited)
  | t :: ts, visited =>
    let r := step t visited
    if r.1 = true then (true, r.2) else loopTargets step ts r.2

/-- The outer `for related in relationships` loop: repeat the inner loop
once per gate element, stopping at the first `True`. -/
def loopGate (inner : List String → Bool × List String) :
    Nat → List String → Bool × List String
  | 0, visited => (false, visited)
  | k + 1, visited =>
    let r := inner visited
    if r.1 = true then (true, r.2) else loopGate inner k r.2

/-- Embedding of the local `dfs` of `has_cycle`: depth guard, visited
check, target check, then the nested loops over the gate and the
outgoing targets. -/
def dfsVisit (db : List Rel) (fromId rtype : String) :
    Nat → String → List String → Bool × List String
  | 0, _, visited => (false, visited)
  | fuel + 1, current, visited =>
    if visited.contains current then (false, visited)
    else if current == fromId then (true, visited)
    else
      loopGate
        (loopTargets (fun t v => dfsVisit db fromId rtype fuel t v)
          (outgoingTargets db current rtype))
        (relatedValid db current rtype).length
        (current :: visited)

/-- Embedding of `has_cycle(from, to, type, max_depth)`. -/
def hasCycle (db : List Rel) (fromId toId rtype : String)
    (maxDepth : Nat) : Bool :=
  if fromId == toId then true
  else (dfsVisit db fromId rtype (maxDepth + 1) toId []).1

/-! ### The claim's reading: depth-bounded reachability -/

/-- The claim's edge relation: only Valid outgoing edges of the type. -/
def validStepTargets (db : List Rel) (rtype : String) (node : String) :
    List String :=
  (db.filter (fun r =>
    r.fromId == node && r.rtype == rtype && r.validUntil.isNone)).map
    (fun r => r.toId)

/-- The edge relation the code actually follows: all outgoing edges of
the type, but only out of nodes touched by at least one Valid edge of
the type. -/
def gatedStepTargets (db : List Rel) (rtype : String) (node : String) :
    List String :=
  if (relatedValid db node rtype).isEmpty then []
  else outgoingTargets db node rtype

/-- `target` reachable from `cur` in at most `d` steps of `step`. -/
def reachWithin (step : String → List String) (target : String) :
    Nat → String → Bool
  | 0, cur => cur == target
  | d + 1, cur =>
    cur == target || (step cur).any (fun n => reachWithin step target d n)

/-! ### C6 theorems -/

/-- A Valid `B → C` edge plus an **invalidated** `B → A` edge, both of
type `T`. -/
def cycleDbA : List Rel :=
  [{ id := "e1", fromId := "B", toId := "C", rtype := "T", validFrom := 0
     validUntil := Option.none, recordedAt := 0, invalidatedBy := Option.none },
   { id := "e2", fromId := "B", toId := "A", rtype := "T", validFrom := 0
     validUntil := some 1, recordedAt := 0, invalidatedBy := Option.none }]

/-- A diamond with a long arm listed first: `S → A1 → A2 → M → F` and a
direct `S → M`, all Valid of type `T`. -/
def cycleDbB : List Rel :=
  [{ id := "s1", fromId := "S", toId := "A1", rtype := "T", validFrom := 0
     validUntil := Option.none, recordedAt := 0, invalidatedBy := Option.none },
   { id := "s2", fromId := "A1", toId := "A2", rtype := "T", validFrom := 0
     validUntil := Option.none, recordedAt := 0, invalidatedBy := Option.none },
   { id := "s3", fromId := "A2", toId := "M", rtype := "T", validFrom := 0
     validUntil := Option.none, recordedAt := 0, invalidatedBy := Option.none },
   { id := "s4", fromId := "M", toId := "F", rtype := "T", validFrom := 0
     validUntil := Option.none, recordedAt := 0, invalidatedBy := Option.none },
   { id := "s5", fromId := "S", toId := "M", rtype := "T", validFrom := 0
     validUntil := Option.none, recordedAt := 0, invalidatedBy := Option.none }]

/-- **C6, counterexample.**  Both directions of the claimed "iff" fail:
on `cycleDbA`, `has_cycle("A", "B", T, 100)` returns `True` although `A`
is unreachable from `B` through Valid edges (the SQL follows the
invalidated `B → A` edge); on `cycleDbB`, `has_cycle("F", "S", T, 3)`
returns `False` although `F` is reachable from `S` within 3 steps
(`S → M → F`) — the long arm is explored first, exhausts the depth
budget, and marks `M` visited, and the global visited set then prunes
the short path. -/
theorem hasCycle_claim_false :
    (hasCycle cycleDbA "A" "B" "T" 100 = true ∧
      reachWithin (validStepTargets cycleDbA "T") "A" 100 "B" = false) ∧
    (hasCycle cycleDbB "F" "S" "T" 3 = false ∧
      reachWithin (validStepTargets cycleDbB "T") "F" 3 "S" = true) := by
  refine ⟨⟨by decide, by decide⟩, ⟨by decide, by decide⟩⟩

/-- If every step returns `False`, the inner loop returns `False`. -/
theorem loopTargets_false_of
    (step : String → List String → Bool × List String)
    (h : ∀ t v, (step t v).1 = false) :
    ∀ (ts : List String) (v : List String),
      (loopTargets step ts v).1 = false := by
  intro ts
  induction ts with
  | nil => intro v; rfl
  | cons t ts ih =>
    intro v
    rw [loopTargets]
    rw [if_neg (by rw [h t v]; exact Bool.false_ne_true)]
    exact ih _

/-- If the inner loop returns `False` on every visited list, the gate
loop returns `False`. -/
theorem loopGate_false_of (inner : List String → Bool × List String)
    (h : ∀ v, (inner v).1 = false) :
    ∀ (k : Nat) (v : List String), (loopGate inner k v).1 = false := by
  intro k
  induction k with
  | zero => intro v; rfl
  | succ k ih =>
    intro v
    rw [loopGate]
    rw [if_neg (by rw [h v]; exact Bool.false_ne_true)]
    exact ih _

/-- A `True` from the inner loop comes from a `True` step on some listed
target. -/
theorem loopTargets_true
    (step : String → List String → Bool × List String) :
    ∀ (ts : List String) (v : List String),
      (loopTargets step ts v).1 = true →
      ∃ t ∈ ts, ∃ v0, (step t v0).1 = true := by
  intro ts
  induction ts with
  | nil => intro v h; exact absurd h (by rw [loopTargets]; simp)
  | cons t ts ih =>
    intro v h
    rw [loopTargets] at h
    by_cases hs : (step t v).1 = true
    · exact ⟨t, List.mem_cons_self t ts, v, hs⟩
    · rw [if_neg hs] at h
      obtain ⟨t0, ht0, v0, hv0⟩ := ih _ h
      exact ⟨t0, List.mem_cons_of_mem t ht0, v0, hv0⟩

/-- A `True` from the gate loop comes from a `True` inner run (so the
gate count is positive). -/
theorem loopGate_true (inner : List String → Bool × List String) :
    ∀ (k : Nat) (v : List String),
      (loopGate inner k v).1 = true →
      0 < k ∧ ∃ v0, (inner v0).1 = true := by
  intro k
  induction k with
  | zero => intro v h; exact absurd h (by rw [loopGate]; simp)
  | succ k ih =>
    intro v h
    refine ⟨Nat.succ_pos k, ?_⟩
    rw [loopGate] at h
    by_cases hs : (inner v).1 = true
    · exact ⟨v, hs⟩
    · rw [if_neg hs] at h
      exact (ih _ h).2

/-- Reaching a node that *is* the target needs no steps. -/
theorem reachWithin_self (step : String → List String) (target : String)
    (d : Nat) (cur : String) (h : (cur == target) = true) :
    reachWithin step target d cur = true := by
  cases d with
  | zero => exact h
  | succ d => rw [reachWithin, h, Bool.true_or]

/-- Soundness of the DFS: a `True` answer means the sought node is
reachable within the fuel bound along the gated typed edges. -/
theorem dfsVisit_sound (db : List Rel) (fromId rtype : String) :
    ∀ (fuel : Nat) (current : String) (visited : List String),
      (dfsVisit db fromId rtype fuel current visited).1 = true →
      reachWithin (gatedStepTargets db rtype) fromId (fuel - 1) current
        = true := by
  intro fuel
  induction fuel with
  | zero =>
    intro current visited h
    exact absurd h (by rw [dfsVisit]; simp)
  | succ m ih =>
    intro current visited h
    rw [dfsVisit] at h
    by_cases hv : visited.contains current = true
    · rw [if_pos hv] at h
      exact absurd h (by simp)
    · rw [if_neg hv] at h
      by_cases hc : (current == fromId) = true
      · exact reachWithin_self _ _ _ _ hc
      · rw [if_neg hc] at h
        obtain ⟨hkpos, v0, hinner⟩ := loopGate_true _ _ _ h
        obtain ⟨t, htmem, v1, hstep⟩ := loopTargets_true _ _ _ hinner
        cases m with
        | zero =>
          exact absurd hstep (by rw [dfsVisit]; simp)
        | succ m2 =>
          have hreach := ih t v1 hstep
          show reachWithin (gatedStepTargets db rtype) fromId (m2 + 1)
              current = true
          rw [reachWithin, Bool.or_eq_true, List.any_eq_true]
          refine Or.inr ⟨t, ?_, hreach⟩
          rw [gatedStepTargets,
            if_neg (by
              rw [List.isEmpty_iff]
              intro he
              rw [he] at hkpos
              exact absurd hkpos (by simp))]
          exact htmem

/-- **C6, amended.**  `has_cycle` returns `True` whenever `from == to`
(a self-loop is always a cycle).  Otherwise it runs a depth-bounded DFS
from `to` with a global visited set over the outgoing edges of the same
type — including invalidated ones, a node being expanded only while some
Valid edge of the type touches it — and a `True` answer implies `from`
is reachable from `to` within `max_depth` such steps (no false
positives).  The converse fails: reachability within `max_depth` (even
along Valid edges only) does not force a `True` answer, and `True` does
not imply Valid-edge reachability — the counterexample shows both. -/
theorem hasCycle_spec :
    (∀ (db : List Rel) (f ty : String) (d : Nat),
      hasCycle db f f ty d = true) ∧
    (∀ (db : List Rel) (f t ty : String) (d : Nat),
      hasCycle db f t ty d = true →
      reachWithin (gatedStepTargets db ty) f d t = true) := by
  constructor
  · intro db f ty d
    rw [hasCycle, if_pos (by simp)]
  · intro db f t ty d h
    rw [hasCycle] at h
    by_cases hft : (f == t) = true
    · have heq : f = t := by simpa using hft
      subst heq
      exact reachWithin_self _ _ _ _ (by simp)
    · rw [if_neg hft] at h
      have := dfsVisit_sound db f ty (d + 1) t [] h
      simpa using this

/-- A single Valid `B → A` edge of type `T`. -/
def cycleDbC : List Rel :=
  [{ id := "e9", fromId := "B", toId := "A", rtype := "T", validFrom := 0
     validUntil := Option.none, recordedAt := 0, invalidatedBy := Option.none }]

/-- **C6, witness.**  The self-loop branch at a concrete input, and the
soundness implication discharged on `cycleDbC`, where
`has_cycle("A", "B", T, 2)` is `True`. -/
theorem hasCycle_spec_witness :
    hasCycle cycleDbC "A" "A" "T" 0 = true ∧
    reachWithin (gatedStepTargets cycleDbC "T") "A" 2 "B" = true := by
  refine ⟨hasCycle_spec.1 cycleDbC "A" "T" 0, ?_⟩
  exact hasCycle_spec.2 cycleDbC "A" "B" "T" 2 (by decide)

end MemoryGraph
